import Mathlib

/-!
Shallow embedding of the Frost compiler lexer:
  src/src/lexer/lexer.c, src/src/lexer/lexer.h,
  src/src/token/token.c, src/src/token/token.h, src/inc/utils.h.

Modelling conventions.
A C string is a list of non-NUL characters; the NUL terminator that C
places after the last character is implicit and is produced by `sourceAt`
when the buffer is read at index = length.  Nullable pointers are
`Option`: every public lexer entry point takes an `Option lexer_t`, just
as the C functions take a possibly-NULL `lexer_t *`, and returns its C
return value together with the state the pointed-to lexer has after the
call.  The C while-loops have no a-priori termination bound, so each loop
is written with an explicit fuel parameter; a result of `none` at the
outer layer means the loop did not finish within the given fuel, and
theorems quantify over all fuels where divergence or fuel-independence
matters.  `size_t` arithmetic (in `Frost_lexerPeek`, where a signed `int`
offset is added to a `size_t` index) is modelled exactly, as integer
arithmetic modulo 2^64.  Heap allocation is assumed to succeed, except
that the explicit NULL-argument checks of the source are kept.
-/

namespace Frost

/-- The NUL terminator character of a C string. -/
def nul : Char := Char.ofNat 0

/-- Reading `source[i]` for `i ≤ strlen source`: the stored characters
below the length, and the NUL terminator at the length. -/
def sourceAt (s : List Char) (i : Nat) : Char := s.getD i nul

/-- C `strlen`: number of characters before the first NUL. -/
def strlen (s : List Char) : Nat := (s.takeWhile (fun c => c != nul)).length

/-- C `isalpha` over ASCII, as used by `Frost_nextToken` (the source
spells the call `isaalpha`, a typo for ctype.h `isalpha`, declared
nowhere in the repository). -/
def isalpha (c : Char) : Bool := ('A' ≤ c && c ≤ 'Z') || ('a' ≤ c && c ≤ 'z')

/-- C `isalnum` over ASCII, as used by `Frost_lexerParseID`. -/
def isalnum (c : Char) : Bool := isalpha c || ('0' ≤ c && c ≤ '9')

/-- utils.h `FUNCTION_SUCESS` (spelled as in the source): 0. -/
def FUNCTION_SUCESS : Int := 0

/-- errno `ENOMEM` on Linux: 12.  The lexer returns `-ENOMEM` for NULL
arguments. -/
def ENOMEM : Int := 12

/-- One more than the largest `size_t` value on the 64-bit target. -/
def SIZE_MOD : Nat := 2 ^ 64

/-- token.h `token_type_t` is a C enum; its variants are plain unsigned
values. -/
abbrev token_type_t := Nat

def TOKEN_ID : token_type_t := 0
def TOKEN_IF : token_type_t := 1
def TOKEN_ELSE : token_type_t := 2
def TOKEN_WHILE : token_type_t := 3
def TOKEN_FOR : token_type_t := 4
def TOKEN_RETURN : token_type_t := 5
def TOKEN_IDENTIFIER : token_type_t := 12
def TOKEN_COLON : token_type_t := 47
def TOKEN_ERROR : token_type_t := 56
def TOKEN_EOF : token_type_t := 57

/-- token.h `token_t`: a lexeme string and a token type. -/
structure token_t where
  lexeme : List Char
  type : token_type_t
deriving DecidableEq, Repr

/-- lexer.h `lexer_t`: source buffer, cached lookahead character, the
captured `strlen` of the source, and the cursor index. -/
structure lexer_t where
  source : List Char
  current_char : Char
  source_size : Nat
  index : Nat
deriving DecidableEq, Repr

/-- token.c `Frost_initToken`: returns NULL when the lexeme is NULL;
otherwise allocates a token holding a `strdup` copy of the lexeme and
the given type. -/
def Frost_initToken (lexeme : Option (List Char)) (ty : token_type_t) :
    Option token_t :=
  match lexeme with
  | none => none
  | some lx => some { lexeme := lx, type := ty }

/-- lexer.c `Frost_initLexer`: NULL source gives NULL; otherwise the
lexer starts at index 0 with `source_size = strlen source` and the
lookahead character `source[0]`. -/
def Frost_initLexer (source : Option (List Char)) : Option lexer_t :=
  match source with
  | none => none
  | some s =>
      some { source := s, current_char := sourceAt s 0,
             source_size := strlen s, index := 0 }

/-- The state change of lexer.c `Frost_lexerAdvance` on a non-NULL
lexer: when `index < source_size` and the current character is not the
terminator, step the index and refresh the lookahead; otherwise leave
the lexer untouched. -/
def advanceBody (l : lexer_t) : lexer_t :=
  if l.index < l.source_size ∧ l.current_char ≠ nul then
    { l with index := l.index + 1,
             current_char := sourceAt l.source (l.index + 1) }
  else l

/-- lexer.c `Frost_lexerAdvance`: `-ENOMEM` on a NULL lexer, otherwise
`FUNCTION_SUCESS` together with the advanced state. -/
def Frost_lexerAdvance : Option lexer_t → Int × Option lexer_t
  | none => (-ENOMEM, none)
  | some l => (FUNCTION_SUCESS, some (advanceBody l))

/-- The whitespace test of the loop in `Frost_lexerSkipWhiteSpace`:
carriage return (13), line feed (10), space, or tab. -/
def wsChar (c : Char) : Bool :=
  c == Char.ofNat 13 || c == Char.ofNat 10 || c == ' ' || c == '\t'

/-- The while-loop of lexer.c `Frost_lexerSkipWhiteSpace`, with fuel;
`none` means the loop did not finish within the fuel. -/
def skipWSLoop : Nat → lexer_t → Option lexer_t
  | 0, l => if wsChar l.current_char then none else some l
  | n + 1, l =>
      if wsChar l.current_char then skipWSLoop n (advanceBody l)
      else some l

/-- lexer.c `Frost_lexerSkipWhiteSpace`: `-ENOMEM` on a NULL lexer,
otherwise runs the whitespace loop and returns `FUNCTION_SUCESS`. -/
def Frost_lexerSkipWhiteSpace (fuel : Nat) :
    Option lexer_t → Option (Int × Option lexer_t)
  | none => some (-ENOMEM, none)
  | some l => (skipWSLoop fuel l).map fun l2 => (FUNCTION_SUCESS, some l2)

/-- The while-loop of lexer.c `Frost_lexerParseID`, with fuel: while the
current character is alphanumeric, append it to the accumulated lexeme
and advance. -/
def parseIDLoop : Nat → lexer_t → List Char → Option (List Char × lexer_t)
  | 0, l, value => if isalnum l.current_char then none else some (value, l)
  | n + 1, l, value =>
      if isalnum l.current_char then
        parseIDLoop n (advanceBody l) (value ++ [l.current_char])
      else some (value, l)

/-- lexer.c `Frost_lexerParseID`: NULL on a NULL lexer; otherwise
accumulates an alphanumeric lexeme starting from the empty string and
wraps it via `Frost_initToken` with type `TOKEN_ID`. -/
def Frost_lexerParseID (fuel : Nat) :
    Option lexer_t → Option (Option token_t × Option lexer_t)
  | none => some (none, none)
  | some l =>
      (parseIDLoop fuel l []).map fun p =>
        (Frost_initToken (some p.1) TOKEN_ID, some p.2)

/-- The effect of lexer.c `Frost_lexerAdvanceWith` on a non-NULL lexer:
a NULL token is returned unchanged without advancing; a real token is
returned after one advance. -/
def advanceWithBody (l : lexer_t) (token : Option token_t) :
    Option token_t × lexer_t :=
  match token with
  | none => (none, l)
  | some t => (some t, advanceBody l)

/-- lexer.c `Frost_lexerAdvanceWith`: NULL on a NULL lexer, otherwise
`advanceWithBody`. -/
def Frost_lexerAdvanceWith :
    Option lexer_t → Option token_t → Option token_t × Option lexer_t
  | none, _ => (none, none)
  | some l, token =>
      ((advanceWithBody l token).1, some (advanceWithBody l token).2)

/-- lexer.c `Frost_lexerPeek` on a non-NULL lexer: reads the source at
`MIN(index + offset, source_size)` where `index + offset` is computed in
`size_t` arithmetic, i.e. modulo 2^64 (the `int` offset is converted to
unsigned, so a negative offset wraps around). -/
def peekBody (l : lexer_t) (offset : Int) : Char :=
  sourceAt l.source
    (min ((((l.index : Int) + offset) % (SIZE_MOD : Int)).toNat) l.source_size)

/-- lexer.c `Frost_lexerPeek`: a space character on a NULL lexer,
otherwise `peekBody`. -/
def Frost_lexerPeek : Option lexer_t → Int → Char
  | none, _ => ' '
  | some l, offset => peekBody l offset

/-- The while-loop of lexer.c `Frost_nextToken`, with fuel.  While the
current character is not the terminator: an alphabetic character runs
`Frost_lexerParseID` wrapped in `Frost_lexerAdvanceWith`; any other
character falls into a switch whose only case (`:`) has an empty body,
so the loop repeats with the state unchanged.  When the terminator is
reached the function builds `Frost_initToken(NULL, TOKEN_EOF)`. -/
def nextTokenLoop : Nat → lexer_t → Option (Option token_t × lexer_t)
  | 0, l =>
      if l.current_char = nul then some (Frost_initToken none TOKEN_EOF, l)
      else none
  | n + 1, l =>
      if l.current_char = nul then some (Frost_initToken none TOKEN_EOF, l)
      else if isalpha l.current_char then
        match parseIDLoop n l [] with
        | none => none
        | some p => some (advanceWithBody p.2 (Frost_initToken (some p.1) TOKEN_ID))
      else
        nextTokenLoop n l

/-- lexer.c `Frost_nextToken`: NULL on a NULL lexer, otherwise the
dispatch loop. -/
def Frost_nextToken (fuel : Nat) :
    Option lexer_t → Option (Option token_t × Option lexer_t)
  | none => some (none, none)
  | some l => (nextTokenLoop fuel l).map fun p => (p.1, some p.2)

/-- Well-formed lexer states: those reachable from `Frost_initLexer` on
a NUL-free buffer.  The buffer holds no terminator, the captured size is
the buffer length, the cursor is inside the buffer or one past it, and
the cached lookahead agrees with the buffer. -/
def lexer_t.WF (l : lexer_t) : Prop :=
  (∀ c ∈ l.source, c ≠ nul) ∧
  l.source_size = l.source.length ∧
  l.index ≤ l.source_size ∧
  l.current_char = sourceAt l.source l.index

instance (l : lexer_t) : Decidable l.WF := by
  unfold lexer_t.WF; infer_instance

/-- Modelled from the spec: `peek(offset)` returns the char at
clamp(position + offset, 0, length).  Written from the spec words, to be
compared with `Frost_lexerPeek` as translated from the source. -/
def peekSpec (l : lexer_t) (offset : Int) : Char :=
  sourceAt l.source
    (max 0 (min ((l.index : Int) + offset) (l.source_size : Int))).toNat

/-! Helper lemmas shared by several of the claim theorems below. -/

/-- When the current character is neither the terminator nor alphabetic,
one iteration of the `Frost_nextToken` loop reaches the empty-bodied
switch and repeats with the state unchanged, so the loop never finishes
for any fuel. -/
theorem nextTokenLoop_stuck (l : lexer_t) (h1 : l.current_char ≠ nul)
    (h2 : isalpha l.current_char = false) :
    ∀ fuel, nextTokenLoop fuel l = none := by
  intro fuel
  induction fuel with
  | zero => simp [nextTokenLoop, h1]
  | succ n ih => simp [nextTokenLoop, h1, h2, ih]

/-- When the current character is the terminator, the `Frost_nextToken`
loop exits at once and builds `Frost_initToken` on a NULL lexeme, which
is NULL; the lexer state is untouched. -/
theorem nextTokenLoop_at_end (l : lexer_t) (h : l.current_char = nul) :
    ∀ fuel, nextTokenLoop fuel l = some (none, l) := by
  intro fuel
  cases fuel with
  | zero => simp [nextTokenLoop, h, Frost_initToken]
  | succ n => simp [nextTokenLoop, h, Frost_initToken]

theorem advanceBody_source (l : lexer_t) : (advanceBody l).source = l.source := by
  unfold advanceBody; split <;> rfl

theorem advanceBody_size (l : lexer_t) :
    (advanceBody l).source_size = l.source_size := by
  unfold advanceBody; split <;> rfl

theorem advanceBody_mono (l : lexer_t) : l.index ≤ (advanceBody l).index := by
  unfold advanceBody; split
  · exact Nat.le_succ _
  · exact Nat.le_refl _

theorem advanceBody_index_le (l : lexer_t) (h : l.index ≤ l.source_size) :
    (advanceBody l).index ≤ l.source_size := by
  unfold advanceBody; split
  · next hc => exact hc.1
  · exact h

/-- The whitespace loop only moves the cursor forward and keeps it within
bounds. -/
theorem skipWSLoop_mono (fuel : Nat) :
    ∀ l l2 : lexer_t, skipWSLoop fuel l = some l2 →
      l.index ≤ l2.index ∧ l2.source_size = l.source_size ∧
      (l.index ≤ l.source_size → l2.index ≤ l.source_size) := by
  induction fuel with
  | zero =>
      intro l l2 h
      unfold skipWSLoop at h
      split at h
      · exact absurd h (by simp)
      · cases h
        exact ⟨Nat.le_refl _, rfl, fun hb => hb⟩
  | succ n ih =>
      intro l l2 h
      unfold skipWSLoop at h
      split at h
      · have h1 := ih (advanceBody l) l2 h
        refine ⟨Nat.le_trans (advanceBody_mono l) h1.1, ?_, fun hb => ?_⟩
        · rw [h1.2.1, advanceBody_size]
        · have h2 := h1.2.2 (by rw [advanceBody_size]; exact advanceBody_index_le l hb)
          rwa [advanceBody_size] at h2
      · cases h
        exact ⟨Nat.le_refl _, rfl, fun hb => hb⟩

/-- The identifier loop only moves the cursor forward and keeps it
within bounds. -/
theorem parseIDLoop_mono (fuel : Nat) :
    ∀ (l : lexer_t) (value : List Char) (p : List Char × lexer_t),
      parseIDLoop fuel l value = some p →
      l.index ≤ p.2.index ∧ p.2.source_size = l.source_size ∧
      (l.index ≤ l.source_size → p.2.index ≤ l.source_size) := by
  induction fuel with
  | zero =>
      intro l value p h
      unfold parseIDLoop at h
      split at h
      · exact absurd h (by simp)
      · cases h
        exact ⟨Nat.le_refl _, rfl, fun hb => hb⟩
  | succ n ih =>
      intro l value p h
      unfold parseIDLoop at h
      split at h
      · have h1 := ih (advanceBody l) (value ++ [l.current_char]) p h
        refine ⟨Nat.le_trans (advanceBody_mono l) h1.1, ?_, fun hb => ?_⟩
        · rw [h1.2.1, advanceBody_size]
        · have h2 := h1.2.2 (by rw [advanceBody_size]; exact advanceBody_index_le l hb)
          rwa [advanceBody_size] at h2
      · cases h
        exact ⟨Nat.le_refl _, rfl, fun hb => hb⟩

/-- The token-dispatch loop only moves the cursor forward and keeps it
within bounds whenever it returns. -/
theorem nextTokenLoop_mono (fuel : Nat) :
    ∀ (l : lexer_t) (p : Option token_t × lexer_t),
      nextTokenLoop fuel l = some p →
      l.index ≤ p.2.index ∧ p.2.source_size = l.source_size ∧
      (l.index ≤ l.source_size → p.2.index ≤ l.source_size) := by
  induction fuel with
  | zero =>
      intro l p h
      unfold nextTokenLoop at h
      split at h
      · cases h
        exact ⟨Nat.le_refl _, rfl, fun hb => hb⟩
      · exact absurd h (by simp)
  | succ n ih =>
      intro l p h
      unfold nextTokenLoop at h
      split at h
      · cases h
        exact ⟨Nat.le_refl _, rfl, fun hb => hb⟩
      · split at h
        · cases hq : parseIDLoop n l [] with
          | none => rw [hq] at h; exact absurd h (by simp)
          | some q =>
              rw [hq] at h
              cases h
              have h1 := parseIDLoop_mono n l [] q hq
              simp only [Frost_initToken, advanceWithBody]
              refine ⟨Nat.le_trans h1.1 (advanceBody_mono q.2), ?_, fun hb => ?_⟩
              · rw [advanceBody_size, h1.2.1]
              · have h2 : q.2.index ≤ q.2.source_size := by
                  rw [h1.2.1]; exact h1.2.2 hb
                have h3 := advanceBody_index_le q.2 h2
                rw [h1.2.1] at h3
                exact h3
        · exact ih l p h

/-! Claim theorems. -/

/-- C1: the progress/termination invariant fails on the code.  On the
one-character source ":" the dispatch loop of `Frost_nextToken` reaches
the switch statement, whose single case has an empty body and does not
advance, so the same state repeats: for every fuel the call neither
advances the cursor nor returns any token, end-of-input included. -/
theorem C1_no_progress_on_colon :
    ∀ fuel, Frost_nextToken fuel (Frost_initLexer (some [':'])) = none := by
  intro fuel
  show (nextTokenLoop fuel
      { source := [':'], current_char := ':', source_size := 1, index := 0 }).map
      (fun p => (p.1, some p.2)) = none
  rw [nextTokenLoop_stuck _ (by decide) (by decide) fuel]
  rfl

/-- C2: at end of input the cursor is indeed left unchanged and every
further call gives the same result, but that result is NULL, not a token
of end-of-input kind: the EOF path passes a NULL lexeme to
`Frost_initToken`, which rejects it. -/
theorem C2_eof_path_returns_null :
    (∀ fuel, Frost_nextToken fuel (Frost_initLexer (some [])) =
        some (none, Frost_initLexer (some []))) ∧
    Frost_initToken none TOKEN_EOF = none := by
  refine ⟨fun fuel => ?_, rfl⟩
  show (nextTokenLoop fuel
      { source := [], current_char := nul, source_size := 0, index := 0 }).map
      (fun p => (p.1, some p.2)) = _
  rw [nextTokenLoop_at_end _ rfl fuel]
  rfl

/-- C3: there is no keyword table in the code: `Frost_lexerParseID`
labels every scanned word with the generic kind TOKEN_ID, so "if" does
not lex as the TOKEN_IF keyword kind; and an underscore does not start
an identifier for the dispatch test (`isalpha`), so on "_if" the token
loop never returns at all. -/
theorem C3_no_keyword_classification :
    Frost_nextToken 5 (Frost_initLexer (some ['i','f'])) =
      some (some { lexeme := ['i','f'], type := TOKEN_ID },
            some { source := ['i','f'], current_char := nul,
                   source_size := 2, index := 2 }) ∧
    TOKEN_ID ≠ TOKEN_IF ∧
    (∀ fuel, Frost_nextToken fuel (Frost_initLexer (some ['_','i','f'])) = none) := by
  refine ⟨by decide, by decide, fun fuel => ?_⟩
  show (nextTokenLoop fuel
      { source := ['_','i','f'], current_char := '_', source_size := 3, index := 0 }).map
      (fun p => (p.1, some p.2)) = none
  rw [nextTokenLoop_stuck _ (by decide) (by decide) fuel]
  rfl

/-- C4: length conservation fails on the source "a b".  The first call
returns lexeme "a" but leaves the cursor at index 2: after the
identifier loop stops on the space, `Frost_lexerAdvanceWith` performs
one more advance, consuming the space without recording it anywhere (no
whitespace-skipping is ever invoked by `Frost_nextToken`).  The second
call returns lexeme "b"; the third finds the terminator.  The emitted
lexemes cover 2 characters of a 3-character source. -/
theorem C4_length_conservation_fails :
    Frost_nextToken 5 (Frost_initLexer (some ['a',' ','b'])) =
      some (some { lexeme := ['a'], type := TOKEN_ID },
            some { source := ['a',' ','b'], current_char := 'b',
                   source_size := 3, index := 2 }) ∧
    Frost_nextToken 5
        (some { source := ['a',' ','b'], current_char := 'b',
                source_size := 3, index := 2 }) =
      some (some { lexeme := ['b'], type := TOKEN_ID },
            some { source := ['a',' ','b'], current_char := nul,
                   source_size := 3, index := 3 }) ∧
    Frost_nextToken 5
        (some { source := ['a',' ','b'], current_char := nul,
                source_size := 3, index := 3 }) =
      some (none,
            some { source := ['a',' ','b'], current_char := nul,
                   source_size := 3, index := 3 }) ∧
    ['a'].length + ['b'].length ≠ ['a',' ','b'].length := by
  decide

/-- C6: whitespace is not invisible: `Frost_nextToken` never calls
`Frost_lexerSkipWhiteSpace`, so on "  if  " the leading space puts the
dispatch loop into the empty switch forever and no token is ever
produced, while "if" yields an identifier token: the two token-kind
sequences are not identical. -/
theorem C6_whitespace_not_invisible :
    (∀ fuel,
        Frost_nextToken fuel
          (Frost_initLexer (some [' ',' ','i','f',' ',' '])) = none) ∧
    Frost_nextToken 5 (Frost_initLexer (some ['i','f'])) =
      some (some { lexeme := ['i','f'], type := TOKEN_ID },
            some { source := ['i','f'], current_char := nul,
                   source_size := 2, index := 2 }) := by
  refine ⟨fun fuel => ?_, by decide⟩
  show (nextTokenLoop fuel
      { source := [' ',' ','i','f',' ',' '], current_char := ' ',
        source_size := 6, index := 0 }).map
      (fun p => (p.1, some p.2)) = none
  rw [nextTokenLoop_stuck _ (by decide) (by decide) fuel]
  rfl

/-- C9: `Frost_initToken` returns NULL whenever the supplied lexeme is
NULL, whatever the token type, end-of-input included; consequently the
end-of-input path of `Frost_nextToken`, which passes a NULL lexeme,
returns NULL rather than a token of end-of-input kind, with the lexer
state untouched. -/
theorem C9_initToken_rejects_null_lexeme :
    (∀ ty, Frost_initToken none ty = none) ∧
    (∀ (fuel : Nat) (l : lexer_t), l.current_char = nul →
      Frost_nextToken fuel (some l) = some (none, some l)) := by
  refine ⟨fun ty => rfl, fun fuel l h => ?_⟩
  show (nextTokenLoop fuel l).map (fun p => (p.1, some p.2)) = _
  rw [nextTokenLoop_at_end l h fuel]
  rfl

/-- Witness for C9 at a concrete end-of-input lexer and the TOKEN_EOF
type. -/
theorem C9_witness :
    Frost_nextToken 0
        (some { source := [], current_char := nul, source_size := 0, index := 0 }) =
      some (none,
            some { source := [], current_char := nul, source_size := 0, index := 0 }) ∧
    Frost_initToken none TOKEN_EOF = none :=
  ⟨C9_initToken_rejects_null_lexeme.2 0
      { source := [], current_char := nul, source_size := 0, index := 0 } (by decide),
   C9_initToken_rejects_null_lexeme.1 TOKEN_EOF⟩

/-- C10: every lexer operation is total on a NULL lexer argument:
advance and skip-whitespace return `-ENOMEM`, next-token and
parse-identifier return NULL, and peek returns the space character, in
every case without any state to modify. -/
theorem C10_null_lexer_totality :
    Frost_lexerAdvance none = (-ENOMEM, none) ∧
    (∀ fuel, Frost_lexerSkipWhiteSpace fuel none = some (-ENOMEM, none)) ∧
    (∀ fuel, Frost_nextToken fuel none = some (none, none)) ∧
    (∀ fuel, Frost_lexerParseID fuel none = some (none, none)) ∧
    (∀ offset, Frost_lexerPeek none offset = ' ') :=
  ⟨rfl, fun _ => rfl, fun _ => rfl, fun _ => rfl, fun _ => rfl⟩

/-- C7: `Frost_lexerAdvance` on a non-NULL lexer never errors (it always
returns FUNCTION_SUCESS); it increments the index and refreshes the
lookahead character exactly when the cursor is not at end (index below
the captured size and current character not the terminator); otherwise
it leaves the entire state unchanged, so any number of repeated advances
at or past the end is the identity. -/
theorem C7_advance_exact_behaviour :
    ∀ l : lexer_t,
      (Frost_lexerAdvance (some l)).1 = FUNCTION_SUCESS ∧
      (l.index < l.source_size ∧ l.current_char ≠ nul →
        Frost_lexerAdvance (some l) =
          (FUNCTION_SUCESS,
           some { l with index := l.index + 1,
                         current_char := sourceAt l.source (l.index + 1) })) ∧
      (¬(l.index < l.source_size ∧ l.current_char ≠ nul) →
        Frost_lexerAdvance (some l) = (FUNCTION_SUCESS, some l) ∧
        ∀ n, advanceBody^[n] l = l) := by
  intro l
  refine ⟨rfl, fun hc => ?_, fun hc => ⟨?_, fun n => ?_⟩⟩
  · show (FUNCTION_SUCESS, some (advanceBody l)) = _
    unfold advanceBody
    rw [if_pos hc]
  · show (FUNCTION_SUCESS, some (advanceBody l)) = _
    unfold advanceBody
    rw [if_neg hc]
  · refine Function.iterate_fixed ?_ n
    unfold advanceBody
    rw [if_neg hc]

/-- Witness for C7: the advancing case at the start of "ab" and the
stationary case, iterated three times, at its end. -/
theorem C7_witness :
    Frost_lexerAdvance
        (some { source := ['a','b'], current_char := 'a', source_size := 2, index := 0 }) =
      (FUNCTION_SUCESS,
       some { source := ['a','b'], current_char := 'b', source_size := 2, index := 1 }) ∧
    advanceBody^[3]
        { source := ['a','b'], current_char := nul, source_size := 2, index := 2 } =
      { source := ['a','b'], current_char := nul, source_size := 2, index := 2 } := by
  constructor
  · exact (C7_advance_exact_behaviour
      { source := ['a','b'], current_char := 'a', source_size := 2, index := 0 }).2.1
      (by decide)
  · exact ((C7_advance_exact_behaviour
      { source := ['a','b'], current_char := nul, source_size := 2, index := 2 }).2.2
      (by decide)).2 3

/-- C8: the cursor position is monotonically non-decreasing and bounded
by the captured source length (`index` is a natural number, so it is
never negative): initialization starts at index 0, and advance,
whitespace skipping, identifier parsing and token dispatch each leave
the index no smaller than before and, when it started within bounds,
still within bounds; `Frost_lexerPeek` computes a character without
touching the state at all. -/
theorem C8_cursor_monotone_and_bounded :
    ∀ (l : lexer_t) (fuel : Nat),
      (∀ s l0, Frost_initLexer (some s) = some l0 →
        l0.index = 0 ∧ l0.index ≤ l0.source_size) ∧
      (l.index ≤ (advanceBody l).index ∧
        (l.index ≤ l.source_size → (advanceBody l).index ≤ l.source_size)) ∧
      (∀ r l2, Frost_lexerSkipWhiteSpace fuel (some l) = some (r, some l2) →
        l.index ≤ l2.index ∧ (l.index ≤ l.source_size → l2.index ≤ l.source_size)) ∧
      (∀ t l2, Frost_lexerParseID fuel (some l) = some (t, some l2) →
        l.index ≤ l2.index ∧ (l.index ≤ l.source_size → l2.index ≤ l.source_size)) ∧
      (∀ t l2, Frost_nextToken fuel (some l) = some (t, some l2) →
        l.index ≤ l2.index ∧ (l.index ≤ l.source_size → l2.index ≤ l.source_size)) := by
  intro l fuel
  refine ⟨?_, ⟨advanceBody_mono l, fun hb => advanceBody_index_le l hb⟩, ?_, ?_, ?_⟩
  · intro s l0 h
    cases h
    exact ⟨rfl, Nat.zero_le _⟩
  · intro r l2 h
    cases hs : skipWSLoop fuel l with
    | none => simp [Frost_lexerSkipWhiteSpace, hs] at h
    | some l3 =>
        simp only [Frost_lexerSkipWhiteSpace, hs, Option.map_some', Option.some.injEq,
          Prod.mk.injEq] at h
        obtain ⟨-, h2⟩ := h
        cases h2
        have h1 := skipWSLoop_mono fuel l l2 hs
        exact ⟨h1.1, h1.2.2⟩
  · intro t l2 h
    cases hs : parseIDLoop fuel l [] with
    | none => simp [Frost_lexerParseID, hs] at h
    | some q =>
        simp only [Frost_lexerParseID, hs, Option.map_some', Option.some.injEq,
          Prod.mk.injEq] at h
        obtain ⟨-, h2⟩ := h
        cases h2
        have h1 := parseIDLoop_mono fuel l [] q hs
        exact ⟨h1.1, h1.2.2⟩
  · intro t l2 h
    cases hs : nextTokenLoop fuel l with
    | none => simp [Frost_nextToken, hs] at h
    | some q =>
        simp only [Frost_nextToken, hs, Option.map_some', Option.some.injEq,
          Prod.mk.injEq] at h
        obtain ⟨-, h2⟩ := h
        cases h2
        have h1 := nextTokenLoop_mono fuel l q hs
        exact ⟨h1.1, h1.2.2⟩

/-- Witness for C8: skipping the blank of " a" moves the cursor from 0
to 1 and keeps it within the 2-character bound, and dispatching on "a"
ends within bounds as well. -/
theorem C8_witness :
    (({ source := [' ','a'], current_char := ' ', source_size := 2, index := 0 } : lexer_t).index ≤
      ({ source := [' ','a'], current_char := 'a', source_size := 2, index := 1 } : lexer_t).index) ∧
    ({ source := [' ','a'], current_char := 'a', source_size := 2, index := 1 } : lexer_t).index ≤
      ({ source := [' ','a'], current_char := ' ', source_size := 2, index := 0 } : lexer_t).source_size := by
  have h := (C8_cursor_monotone_and_bounded
      { source := [' ','a'], current_char := ' ', source_size := 2, index := 0 } 5).2.2.1
      FUNCTION_SUCESS
      { source := [' ','a'], current_char := 'a', source_size := 2, index := 1 }
      (by decide)
  exact ⟨h.1, h.2 (by decide)⟩

/-- C5 counterexample: at the start of "ab", peeking with offset -1 does
not clamp the index up to 0 as the claim states.  The size_t sum
index + offset wraps around to 2^64 - 1, the MIN clamp picks the source
length, and the code returns the NUL terminator stored there, while the
clamp formula of the claim names the character at index 0, 'a'. -/
theorem C5_peek_counterexample :
    Frost_lexerPeek (Frost_initLexer (some ['a','b'])) (-1) = nul ∧
    peekSpec { source := ['a','b'], current_char := 'a',
               source_size := 2, index := 0 } (-1) = 'a' ∧
    nul ≠ 'a' := by
  decide

/-- C5 amended: for a well-formed lexer whose captured size and offset
are within the machine ranges, `Frost_lexerPeek` returns the char at
clamp(position + offset, 0, length) whenever position + offset is
nonnegative, and the buffer is never accessed beyond its terminator; but
when position + offset is negative the unsigned wraparound clamps the
index to the length instead of to 0, so the NUL terminator is returned
rather than the char at index 0; a NULL lexer yields the space
sentinel. -/
theorem C5_peek_amended :
    ∀ (l : lexer_t) (offset : Int),
      l.WF → l.source_size < 2 ^ 63 → -(2 ^ 31) ≤ offset → offset < 2 ^ 31 →
      ((0 ≤ (l.index : Int) + offset →
          Frost_lexerPeek (some l) offset = peekSpec l offset) ∧
       ((l.index : Int) + offset < 0 →
          Frost_lexerPeek (some l) offset = nul) ∧
       Frost_lexerPeek none offset = ' ') := by
  intro l offset hwf hsz hlo hhi
  obtain ⟨hnonul, hlen, hidx, hcur⟩ := hwf
  have hM : ((SIZE_MOD : Nat) : Int) = 18446744073709551616 := by
    norm_num [SIZE_MOD]
  refine ⟨fun hpos => ?_, fun hneg => ?_, rfl⟩
  · show peekBody l offset = peekSpec l offset
    unfold peekBody peekSpec
    congr 1
    have hx : ((l.index : Int) + offset) % ((SIZE_MOD : Nat) : Int) =
        (l.index : Int) + offset := by
      rw [hM]
      omega
    rw [hx]
    omega
  · show peekBody l offset = nul
    unfold peekBody
    have hx : (min ((((l.index : Int) + offset) % ((SIZE_MOD : Nat) : Int)).toNat)
        l.source_size) = l.source_size := by
      rw [hM]
      omega
    rw [hx, hlen]
    exact List.getD_eq_default _ _ (Nat.le_refl _)

/-- Witness for C5 on the lexer for "ab" at index 0: a nonnegative
in-range offset agrees with the clamp reading, and offset -1 lands on
the terminator. -/
theorem C5_witness :
    Frost_lexerPeek
        (some { source := ['a','b'], current_char := 'a', source_size := 2, index := 0 }) 1 =
      peekSpec { source := ['a','b'], current_char := 'a', source_size := 2, index := 0 } 1 ∧
    Frost_lexerPeek
        (some { source := ['a','b'], current_char := 'a', source_size := 2, index := 0 }) (-1) =
      nul := by
  constructor
  · exact (C5_peek_amended
      { source := ['a','b'], current_char := 'a', source_size := 2, index := 0 } 1
      (by decide) (by decide) (by decide) (by decide)).1 (by decide)
  · exact (C5_peek_amended
      { source := ['a','b'], current_char := 'a', source_size := 2, index := 0 } (-1)
      (by decide) (by decide) (by decide) (by decide)).2.1 (by decide)

end Frost
